import Mathlib

/-
Verification of the two HTTP middleware components of
src/backend/base/langflow/middleware.py:

* `ContentSizeLimitMiddleware` (the Body Size Guard): a wrapper around the
  ASGI receive channel that accumulates the byte length of `http.request`
  messages and raises a 413 `MaxFileSizeException` once the running total
  exceeds `max_file_size_upload * 1024 * 1024` bytes, where the setting
  `max_file_size_upload` (in megabytes, `None` for no limit) is fetched
  from the settings service anew on every call of the inner receive
  function.

* `OriginValidationMiddleware` (the Origin Gate): a dispatch wrapper that,
  when a non-empty allow-list is configured, rejects requests whose
  Origin/Referer value does not start with one of the allowed prefixes,
  responding 401 with a JSON body, unless the request path starts with one
  of the hardcoded bypass prefixes.

The embedding is shallow: one call of the Python closure `inner` becomes
the pure step function `inner` below; the per-request mutable `received`
counter becomes explicit state threaded through `receive_wrapper_run`; the
per-call settings lookup becomes an oracle `Nat → Option Nat` indexed by
the call number; raising an exception becomes an `Except`/`GuardResult`
error value that carries the prefix of messages forwarded before the
raise (nothing after the raise is processed).
-/

set_option autoImplicit false

namespace Middleware

/-! ## Data model -/

/-- An ASGI receive message: a `type` tag and (for `http.request` messages)
a body chunk, modelled as its list of bytes.  A message without a `body`
key is modelled by the empty list, matching the source's
`message.get("body", b"")` default. -/
structure Msg where
  type : String
  body : List Nat
deriving DecidableEq, Repr

/-- The data carried by a FastAPI `HTTPException`: a status code and a
detail message. -/
structure HTTPException where
  status_code : Nat
  detail : String
deriving DecidableEq, Repr

/-- `MaxFileSizeException(detail)` from the source: an `HTTPException`
with status code 413. -/
def MaxFileSizeException (detail : String) : HTTPException :=
  { status_code := 413, detail := detail }

/-! ## The size-limit error message

The source computes `received_in_mb = round(received / (1024 * 1024), 3)`.
Since `received` is an integer and `1024 * 1024 = 2 ^ 20`, the Python
float `received / (1024 * 1024)` is exact, and Python's `round(x, 3)`
rounds that exact value to the nearest multiple of `1/1000`, ties to even.
We therefore compute the number of thousandths of a megabyte by
round-half-to-even integer rounding of `received * 1000 / 2 ^ 20`, and
render it the way `repr` renders the resulting float inside the f-string:
trailing zeros of the fractional part are dropped, but at least one
fractional digit is kept. -/

/-- Round `num / den` to the nearest integer, ties to even. -/
def roundHalfEven (num den : Nat) : Nat :=
  let q := num / den
  let r := num % den
  if 2 * r < den then q
  else if den < 2 * r then q + 1
  else if q % 2 = 0 then q else q + 1

/-- Decimal rendering of the fractional part `f` (in thousandths,
`f < 1000`) of the rounded megabyte count, as Python prints the float:
all three digits if the last is nonzero, trailing zeros dropped
otherwise, and a single `0` digit for a whole number. -/
def fracRepr (f : Nat) : String :=
  if f % 10 ≠ 0 then toString (f / 100) ++ toString (f / 10 % 10) ++ toString (f % 10)
  else if f % 100 ≠ 0 then toString (f / 100) ++ toString (f / 10 % 10)
  else if f ≠ 0 then toString (f / 100)
  else "0"

/-- `round(received / (1024 * 1024), 3)` rendered as Python renders the
float: integer part, a dot, then the fractional digits. -/
def mbRepr (received : Nat) : String :=
  let t := roundHalfEven (received * 1000) (1024 * 1024)
  toString (t / 1000) ++ "." ++ fracRepr (t % 1000)

/-- The message the source formats before raising: the f-string
interpolating the configured limit and the rounded received size. -/
def sizeLimitMsg (max_file_size_upload received : Nat) : String :=
  "Content size limit exceeded. Maximum allowed is " ++
    toString max_file_size_upload ++ "MB and got " ++ mbRepr received ++ "MB."

/-! ## Body Size Guard: one call of the inner receive function -/

/-- One call of the closure `inner` inside
`ContentSizeLimitMiddleware.receive_wrapper`, given the value
`max_file_size_upload` the settings service returns at this call, the
current value of the `received` counter, and the message `receive()`
yields.  Returns the forwarded message together with the updated counter,
or the raised exception.  The source returns the message unchanged, with
the counter untouched, when the message type is not `http.request` or the
setting is `None`; otherwise it adds the body length to the counter and
raises once the counter exceeds the limit converted to bytes. -/
def inner (max_file_size_upload : Option Nat) (received : Nat) (message : Msg) :
    Except HTTPException (Msg × Nat) :=
  match max_file_size_upload with
  | none => .ok (message, received)
  | some limit =>
    if message.type = "http.request" then
      let received' := received + message.body.length
      if limit * 1024 * 1024 < received' then
        .error (MaxFileSizeException (sizeLimitMsg limit received'))
      else
        .ok (message, received')
    else
      .ok (message, received)

/-- Outcome of draining a whole request stream through the wrapped
receive: either every message was forwarded (with the final value of the
counter), or the exception `e` was raised at call number `idx`, after the
messages in `forwarded` had been passed through; the messages after the
raise are not processed and hence not part of the result. -/
inductive GuardResult where
  | ok (forwarded : List Msg) (received : Nat)
  | err (forwarded : List Msg) (idx : Nat) (e : HTTPException)
deriving DecidableEq, Repr

/-- Prepend a forwarded message to a `GuardResult`. -/
def GuardResult.consMsg (m : Msg) : GuardResult → GuardResult
  | .ok forwarded received => .ok (m :: forwarded) received
  | .err forwarded idx e => .err (m :: forwarded) idx e

/-- Drain a request stream through the wrapped receive function: the
`i`-th message of the stream is handled by the `i`-th call of `inner`,
which looks the setting up as `settings i` (the source fetches
`get_settings_service().settings.max_file_size_upload` anew inside every
call), threading the `received` counter; once a call raises, no further
message is processed. -/
def receive_wrapper_run (settings : Nat → Option Nat) :
    Nat → Nat → List Msg → GuardResult
  | _, received, [] => .ok [] received
  | i, received, message :: rest =>
    match inner (settings i) received message with
    | .error e => .err [] i e
    | .ok (m', received') =>
      (receive_wrapper_run settings (i + 1) received' rest).consMsg m'

/-- Total byte length of a list of chunks. -/
def sumBytes : List Msg → Nat
  | [] => 0
  | m :: ms => m.body.length + sumBytes ms

/-- The bytes the guard actually counts: body lengths of `http.request`
messages read at a call where the settings lookup returned a finite
limit. -/
def countedBytes (settings : Nat → Option Nat) : Nat → List Msg → Nat
  | _, [] => 0
  | i, m :: ms =>
    (if settings i ≠ none ∧ m.type = "http.request" then m.body.length else 0) +
      countedBytes settings (i + 1) ms

/-! ## Origin Gate -/

/-- The request data the Origin Gate inspects: the URL path and the raw
`Origin` and `Referer` headers (`none` when the header is absent). -/
structure GateRequest where
  path : String
  originHeader : Option String
  refererHeader : Option String
deriving DecidableEq, Repr

/-- `headers.get(name, default)`: the header value when present, the
default otherwise. -/
def headersGet (h : Option String) (default : String) : String :=
  match h with
  | some v => v
  | none => default

/-- Python's `a or b` on the string `headers.get("origin")` (which may be
`None`): the left value unless it is falsy (`None` or the empty string),
in which case the right value. -/
def pyOr (a : Option String) (b : String) : String :=
  match a with
  | none => b
  | some s => if s = "" then b else s

/-- The origin the gate checks:
`request.headers.get("origin") or request.headers.get("referer", "")`. -/
def extractOrigin (req : GateRequest) : String :=
  pyOr req.originHeader (headersGet req.refererHeader "")

/-- Python's `s.startswith(p)`: `p`'s character sequence is a prefix of
`s`'s. -/
def startswith (s p : String) : Bool := p.data.isPrefixOf s.data

/-- The hardcoded bypass path prefixes. -/
def bypass_paths : List String := ["/health", "/docs", "/openapi.json"]

/-- `OriginValidationMiddleware._is_origin_allowed`: false for an empty
origin, otherwise true iff the origin starts with some allow-list
entry. -/
def is_origin_allowed (allowed_origins : List String) (origin : String) : Bool :=
  if origin = "" then false
  else allowed_origins.any (fun allowed => startswith origin allowed)

/-- Outcome of `OriginValidationMiddleware.dispatch`: either the request
was forwarded to `call_next` (and its response returned unchanged), or
the gate answered itself with the given status code and JSON content
(modelled as key/value pairs), logging the given warning line. -/
inductive GateOutcome where
  | forwarded
  | rejected (status_code : Nat) (content : List (String × String)) (logWarning : String)
deriving DecidableEq, Repr

/-- The warning line logged for a rejected request:
`f"🚫 Blocked direct access from: {origin or 'unknown origin'}"`. -/
def blockedWarning (origin : String) : String :=
  "🚫 Blocked direct access from: " ++
    (if origin = "" then "unknown origin" else origin)

/-- `OriginValidationMiddleware.dispatch`: forward when the allow-list is
empty (disabled mode); forward when the path starts with a bypass prefix;
otherwise extract the origin and either reject with 401 or forward. -/
def dispatch (allowed_origins : List String) (req : GateRequest) : GateOutcome :=
  if allowed_origins = [] then .forwarded
  else if bypass_paths.any (fun p => startswith req.path p) then .forwarded
  else
    let origin := extractOrigin req
    if ¬ is_origin_allowed allowed_origins origin then
      .rejected 401 [("detail", "Direct access not allowed")] (blockedWarning origin)
    else .forwarded

/-- Python's `str.split(",")` on the character list: split at every comma
occurrence; the empty string yields one empty field. -/
def splitCommas : List Char → List (List Char)
  | [] => [[]]
  | c :: rest =>
    if c = ',' then [] :: splitCommas rest
    else
      match splitCommas rest with
      | [] => [[c]]
      | w :: ws => (c :: w) :: ws

/-- Python's `str.strip()`: drop whitespace from both ends. -/
def stripWS (cs : List Char) : List Char :=
  ((cs.dropWhile Char.isWhitespace).reverse.dropWhile Char.isWhitespace).reverse

/-- Parsing of the `ALLOWED_ORIGINS` environment variable at middleware
construction: split on commas, strip each entry, drop the empty ones. -/
def parse_allowed_origins (env : String) : List String :=
  (((splitCommas env.data).map stripWS).map String.mk).filter (fun s => s ≠ "")

/-! ## Basic lemmas about the Body Size Guard embedding -/

@[simp]
theorem GuardResult.consMsg_ok (m : Msg) (fwd : List Msg) (r : Nat) :
    (GuardResult.ok fwd r).consMsg m = .ok (m :: fwd) r := rfl

@[simp]
theorem GuardResult.consMsg_err (m : Msg) (fwd : List Msg) (j : Nat) (e : HTTPException) :
    (GuardResult.err fwd j e).consMsg m = .err (m :: fwd) j e := rfl

theorem GuardResult.consMsg_eq_ok (m : Msg) (x : GuardResult) (fwd : List Msg) (r : Nat) :
    x.consMsg m = .ok fwd r ↔ ∃ fwd', x = .ok fwd' r ∧ fwd = m :: fwd' := by
  cases x with
  | ok fwd0 r0 => simp [GuardResult.consMsg]; aesop
  | err fwd0 j0 e0 => simp [GuardResult.consMsg]

theorem GuardResult.consMsg_eq_err (m : Msg) (x : GuardResult) (fwd : List Msg)
    (j : Nat) (e : HTTPException) :
    x.consMsg m = .err fwd j e ↔ ∃ fwd', x = .err fwd' j e ∧ fwd = m :: fwd' := by
  cases x with
  | ok fwd0 r0 => simp [GuardResult.consMsg]
  | err fwd0 j0 e0 => simp [GuardResult.consMsg]; aesop

@[simp]
theorem receive_wrapper_run_nil (settings : Nat → Option Nat) (i r : Nat) :
    receive_wrapper_run settings i r [] = .ok [] r := rfl

theorem receive_wrapper_run_cons (settings : Nat → Option Nat) (i r : Nat)
    (m : Msg) (ms : List Msg) :
    receive_wrapper_run settings i r (m :: ms) =
      match inner (settings i) r m with
      | .error e => .err [] i e
      | .ok (m', r') => (receive_wrapper_run settings (i + 1) r' ms).consMsg m' := rfl

/-- With no limit configured, one call forwards the message and leaves the
counter untouched. -/
@[simp]
theorem inner_none (received : Nat) (message : Msg) :
    inner none received message = .ok (message, received) := rfl

/-- With a finite limit and a body chunk small enough, one call forwards
the chunk and adds its length to the counter. -/
theorem inner_ok (limit received : Nat) (message : Msg)
    (hty : message.type = "http.request")
    (hle : received + message.body.length ≤ limit * 1024 * 1024) :
    inner (some limit) received message =
      .ok (message, received + message.body.length) := by
  simp [inner, hty, Nat.not_lt.mpr hle]

/-- With a finite limit and a body chunk pushing the counter over the
limit, one call raises the 413 exception with the formatted message. -/
theorem inner_err (limit received : Nat) (message : Msg)
    (hty : message.type = "http.request")
    (hgt : limit * 1024 * 1024 < received + message.body.length) :
    inner (some limit) received message =
      .error (MaxFileSizeException
        (sizeLimitMsg limit (received + message.body.length))) := by
  simp [inner, hty, hgt]

/-- A non-body message is forwarded unchanged, counter untouched. -/
theorem inner_not_request (o : Option Nat) (received : Nat) (message : Msg)
    (hty : message.type ≠ "http.request") :
    inner o received message = .ok (message, received) := by
  cases o <;> simp [inner, hty]

/-- Helper: with the settings oracle constantly `none`, the whole stream
is forwarded and the counter never moves. -/
theorem run_none_eq (i r : Nat) (msgs : List Msg) :
    receive_wrapper_run (fun _ => none) i r msgs = .ok msgs r := by
  induction msgs generalizing i r with
  | nil => rfl
  | cons m ms ih => simp [receive_wrapper_run_cons, ih]

/-- Helper: with a constant finite limit and a stream of body chunks whose
total, added to the running counter, stays within the limit, every chunk
is forwarded and the counter ends at the total. -/
theorem run_le_eq (L : Nat) (msgs : List Msg) (i r : Nat)
    (hty : ∀ m ∈ msgs, m.type = "http.request")
    (hle : r + sumBytes msgs ≤ L * 1024 * 1024) :
    receive_wrapper_run (fun _ => some L) i r msgs = .ok msgs (r + sumBytes msgs) := by
  induction msgs generalizing i r with
  | nil => simp [sumBytes]
  | cons m ms ih =>
    have hm : m.type = "http.request" := hty m (by simp)
    have hle' : (r + m.body.length) + sumBytes ms ≤ L * 1024 * 1024 := by
      have := hle; simp [sumBytes] at this ⊢; omega
    have hstep : r + m.body.length ≤ L * 1024 * 1024 := by omega
    rw [receive_wrapper_run_cons, inner_ok L r m hm hstep]
    simp only [ih (i + 1) (r + m.body.length) (fun x hx => hty x (by simp [hx])) hle',
      GuardResult.consMsg_ok, sumBytes]
    congr 1
    omega

/-- Helper: with a constant finite limit, a running counter still within
the limit, and a stream of body chunks whose total pushes past the limit,
the run raises at exactly the first chunk where the cumulative total
exceeds the limit: the chunks strictly before it are forwarded, the
exception is the 413 with the formatted message for the cumulative total
including the offending chunk, and nothing after the raise appears in the
result. -/
theorem run_overflow (L : Nat) (msgs : List Msg) (i r : Nat)
    (hty : ∀ m ∈ msgs, m.type = "http.request")
    (hr : r ≤ L * 1024 * 1024)
    (hover : L * 1024 * 1024 < r + sumBytes msgs) :
    ∃ k, k < msgs.length ∧
      receive_wrapper_run (fun _ => some L) i r msgs =
        .err (msgs.take k) (i + k)
          (MaxFileSizeException (sizeLimitMsg L (r + sumBytes (msgs.take (k + 1))))) ∧
      r + sumBytes (msgs.take k) ≤ L * 1024 * 1024 ∧
      L * 1024 * 1024 < r + sumBytes (msgs.take (k + 1)) := by
  induction msgs generalizing i r with
  | nil => simp [sumBytes] at hover; omega
  | cons m ms ih =>
    have hm : m.type = "http.request" := hty m (by simp)
    by_cases hx : L * 1024 * 1024 < r + m.body.length
    · refine ⟨0, by simp, ?_, by simpa [sumBytes], by simpa [sumBytes]⟩
      rw [receive_wrapper_run_cons, inner_err L r m hm hx]
      simp [sumBytes]
    · push_neg at hx
      have hover' : L * 1024 * 1024 < (r + m.body.length) + sumBytes ms := by
        have := hover; simp [sumBytes] at this; omega
      obtain ⟨k, hk, hrun, hmin, hexc⟩ :=
        ih (i + 1) (r + m.body.length) (fun x hx => hty x (by simp [hx])) hx hover'
      refine ⟨k + 1, by simpa using Nat.succ_lt_succ hk, ?_, ?_, ?_⟩
      · rw [receive_wrapper_run_cons, inner_ok L r m hm hx]
        dsimp only
        rw [hrun]
        simp only [GuardResult.consMsg_err, List.take_succ_cons, sumBytes]
        rw [Nat.add_assoc r, Nat.add_assoc i, Nat.add_comm 1 k]
      · simpa [sumBytes, Nat.add_assoc] using hmin
      · simpa [sumBytes, Nat.add_assoc] using hexc

/-- Helper: every raised exception is a 413 whose message was formatted
from the limit the settings oracle returned at the raising call and from
some cumulative total strictly above that limit in bytes. -/
theorem run_err_form (settings : Nat → Option Nat) (msgs : List Msg) (i r : Nat)
    (fwd : List Msg) (j : Nat) (e : HTTPException)
    (h : receive_wrapper_run settings i r msgs = .err fwd j e) :
    ∃ L tot, settings j = some L ∧ L * 1024 * 1024 < tot ∧
      e = { status_code := 413, detail := sizeLimitMsg L tot } := by
  induction msgs generalizing i r fwd with
  | nil => simp at h
  | cons m ms ih =>
    rw [receive_wrapper_run_cons] at h
    rcases ho : inner (settings i) r m with e' | p
    · rw [ho] at h
      rcases hs : settings i with _ | L
      · rw [hs] at ho; simp [inner] at ho
      · rw [hs] at ho
        by_cases hm : m.type = "http.request"
        · by_cases hx : L * 1024 * 1024 < r + m.body.length
          · rw [inner_err L r m hm hx] at ho
            cases h
            cases ho
            exact ⟨L, r + m.body.length, hs, hx, rfl⟩
          · push_neg at hx
            rw [inner_ok L r m hm hx] at ho
            cases ho
        · rw [inner_not_request (some L) r m hm] at ho
          cases ho
    · rw [ho] at h
      obtain ⟨m', r'⟩ := p
      rw [GuardResult.consMsg_eq_err] at h
      obtain ⟨fwd', hrec, _⟩ := h
      exact ih (i + 1) r' fwd' hrec

/-- Helper: the runs under two settings oracles agree whenever the oracles
agree on the call numbers actually used for the stream. -/
theorem run_congr (f g : Nat → Option Nat) (msgs : List Msg) :
    ∀ i r, (∀ k, k < msgs.length → f (i + k) = g (i + k)) →
      receive_wrapper_run f i r msgs = receive_wrapper_run g i r msgs := by
  induction msgs with
  | nil => intro i r _; rfl
  | cons m ms ih =>
    intro i r hagree
    have h0 : f i = g i := by simpa using hagree 0 (by simp)
    rw [receive_wrapper_run_cons, receive_wrapper_run_cons, h0]
    rcases inner (g i) r m with e | ⟨m', r'⟩
    · rfl
    · dsimp only
      rw [ih (i + 1) r' (fun k hk => by
        have h := hagree (k + 1) (by simp; omega)
        have e : i + (k + 1) = i + 1 + k := by omega
        rw [e] at h
        exact h)]

/-! ## Basic lemmas about the Origin Gate embedding -/

/-- `_is_origin_allowed` returns true exactly for a non-empty origin that
starts with at least one allow-list entry. -/
theorem is_origin_allowed_iff (allowed_origins : List String) (origin : String) :
    is_origin_allowed allowed_origins origin = true ↔
      origin ≠ "" ∧ ∃ a ∈ allowed_origins, startswith origin a = true := by
  by_cases h : origin = "" <;> simp [is_origin_allowed, h, List.any_eq_true]

/-! ## Claim theorems -/

/-- C1: for any sequence of body chunks whose cumulative byte length
exceeds the configured limit times 1024*1024, the Body Size Guard raises
the payload-too-large error (status 413) exactly once, at the chunk where
the cumulative total first exceeds the threshold, and no further chunks
are processed after the raise: the run result is an error raised at index
k, carrying exactly the chunks before index k as forwarded, where the
cumulative total through chunk k is the first to exceed the threshold. -/
theorem C1_overflow_raises_once (L : Nat) (msgs : List Msg)
    (hty : ∀ m ∈ msgs, m.type = "http.request")
    (hover : L * 1024 * 1024 < sumBytes msgs) :
    ∃ k, k < msgs.length ∧
      receive_wrapper_run (fun _ => some L) 0 0 msgs =
        .err (msgs.take k) k
          { status_code := 413,
            detail := sizeLimitMsg L (sumBytes (msgs.take (k + 1))) } ∧
      sumBytes (msgs.take k) ≤ L * 1024 * 1024 ∧
      L * 1024 * 1024 < sumBytes (msgs.take (k + 1)) := by
  obtain ⟨k, hk, hrun, hmin, hexc⟩ :=
    run_overflow L msgs 0 0 hty (Nat.zero_le _) (by omega)
  refine ⟨k, hk, ?_, by simpa using hmin, by simpa using hexc⟩
  simpa [MaxFileSizeException] using hrun

/-- C1 witness: with limit 0 and a single one-byte chunk, the guard raises
at chunk 0. -/
theorem C1_witness :
    ∃ k, k < ([⟨"http.request", [0]⟩] : List Msg).length ∧
      receive_wrapper_run (fun _ => some 0) 0 0 [⟨"http.request", [0]⟩] =
        .err (([⟨"http.request", [0]⟩] : List Msg).take k) k
          { status_code := 413,
            detail := sizeLimitMsg 0 (sumBytes (([⟨"http.request", [0]⟩] : List Msg).take (k + 1))) } ∧
      sumBytes (([⟨"http.request", [0]⟩] : List Msg).take k) ≤ 0 * 1024 * 1024 ∧
      0 * 1024 * 1024 < sumBytes (([⟨"http.request", [0]⟩] : List Msg).take (k + 1)) :=
  C1_overflow_raises_once 0 [⟨"http.request", [0]⟩] (by decide) (by decide)

/-- C2: for every sequence of body chunks whose cumulative byte length is
at most the configured limit times 1024*1024, the Body Size Guard forwards
every chunk unchanged and raises no error. -/
theorem C2_under_limit_forwards (L : Nat) (msgs : List Msg)
    (hty : ∀ m ∈ msgs, m.type = "http.request")
    (hle : sumBytes msgs ≤ L * 1024 * 1024) :
    receive_wrapper_run (fun _ => some L) 0 0 msgs = .ok msgs (sumBytes msgs) := by
  simpa using run_le_eq L msgs 0 0 hty (by omega)

/-- C2 witness: with limit 1MB, two small chunks pass through unchanged. -/
theorem C2_witness :
    receive_wrapper_run (fun _ => some 1) 0 0
        [⟨"http.request", [0, 1]⟩, ⟨"http.request", [2]⟩] =
      .ok [⟨"http.request", [0, 1]⟩, ⟨"http.request", [2]⟩]
        (sumBytes [⟨"http.request", [0, 1]⟩, ⟨"http.request", [2]⟩]) :=
  C2_under_limit_forwards 1 [⟨"http.request", [0, 1]⟩, ⟨"http.request", [2]⟩]
    (by decide) (by decide)

/-- C7: when the configured maximum-upload-size setting is the "no limit"
value (`None`), the Body Size Guard never raises, passes every chunk
through unchanged, and never moves the counter. -/
theorem C7_no_limit_never_raises (msgs : List Msg) :
    receive_wrapper_run (fun _ => none) 0 0 msgs = .ok msgs 0 :=
  run_none_eq 0 0 msgs

/-- C8: the maximum-upload-size setting is looked up from the settings
oracle at each chunk-processing call rather than captured once per
request: (1) the run is determined by the oracle's values at the call
numbers actually used, so two oracles agreeing there give identical runs
(a mid-stream configuration change takes effect on the next chunk); and
(2) the check applied to the chunk handled at call `i` uses exactly the
value the oracle returns at call `i`, both in the raising and in the
passing case. -/
theorem C8_per_chunk_limit_lookup (f g : Nat → Option Nat) (i r : Nat) (msgs : List Msg) :
    ((∀ k, k < msgs.length → f (i + k) = g (i + k)) →
      receive_wrapper_run f i r msgs = receive_wrapper_run g i r msgs) ∧
    (∀ (m : Msg) (ms : List Msg) (L : Nat), f i = some L → m.type = "http.request" →
      (L * 1024 * 1024 < r + m.body.length →
        receive_wrapper_run f i r (m :: ms) =
          .err [] i
            { status_code := 413,
              detail := sizeLimitMsg L (r + m.body.length) }) ∧
      (r + m.body.length ≤ L * 1024 * 1024 →
        receive_wrapper_run f i r (m :: ms) =
          (receive_wrapper_run f (i + 1) (r + m.body.length) ms).consMsg m)) := by
  refine ⟨run_congr f g msgs i r, ?_⟩
  intro m ms L hfi hm
  constructor
  · intro hgt
    rw [receive_wrapper_run_cons, hfi, inner_err L r m hm hgt]
    rfl
  · intro hle
    rw [receive_wrapper_run_cons, hfi, inner_ok L r m hm hle]

/-- C8 witness: a mid-stream oracle and a constant oracle agreeing on the
only call used produce the same run. -/
theorem C8_witness :
    receive_wrapper_run (fun k => if k = 0 then some 5 else none) 0 0
        [⟨"http.request", [3]⟩] =
      receive_wrapper_run (fun _ => some 5) 0 0 [⟨"http.request", [3]⟩] :=
  (C8_per_chunk_limit_lookup (fun k => if k = 0 then some 5 else none)
      (fun _ => some 5) 0 0 [⟨"http.request", [3]⟩]).1
    (fun k hk => by
      have hk0 : k = 0 := by simpa using hk
      subst hk0
      rfl)

/-- Helper: with limit 1MB and three body chunks of 409600 bytes each,
the run forwards the first two chunks and raises on the third with the
1.172MB message, for any concrete chunk body of that length. -/
theorem run_scenario_1mb (b : List Nat) (hb : b.length = 409600) :
    receive_wrapper_run (fun _ => some 1) 0 0
        [⟨"http.request", b⟩, ⟨"http.request", b⟩, ⟨"http.request", b⟩] =
      .err [⟨"http.request", b⟩, ⟨"http.request", b⟩] 2
        { status_code := 413,
          detail := "Content size limit exceeded. Maximum allowed is 1MB and got 1.172MB." } := by
  have hmsg : sizeLimitMsg 1 1228800 =
      "Content size limit exceeded. Maximum allowed is 1MB and got 1.172MB." := by decide
  have hc : (Msg.mk "http.request" b).body.length = 409600 := hb
  rw [receive_wrapper_run_cons, inner_ok 1 0 _ rfl (by rw [hc]; norm_num)]
  dsimp only
  rw [receive_wrapper_run_cons, inner_ok 1 _ _ rfl (by rw [hc]; norm_num)]
  dsimp only
  rw [receive_wrapper_run_cons, inner_err 1 _ _ rfl (by rw [hc]; norm_num)]
  dsimp only
  simp only [GuardResult.consMsg_err]
  rw [hc, (by norm_num : (0 : Nat) + 409600 + 409600 + 409600 = 1228800), hmsg]
  rfl

/-- C9: when the size limit is exceeded, the raised error carries status
413 and the formatted message built from the configured limit and the
cumulative received bytes divided by 1024*1024 rounded to 3 decimal
places; in particular with limit 1 MB and three 400KB chunks the error is
raised on the third chunk and reports a 1MB limit and 1.172MB received. -/
theorem C9_error_message :
    (receive_wrapper_run (fun _ => some 1) 0 0
        [⟨"http.request", List.replicate (400 * 1024) 0⟩,
         ⟨"http.request", List.replicate (400 * 1024) 0⟩,
         ⟨"http.request", List.replicate (400 * 1024) 0⟩] =
      .err [⟨"http.request", List.replicate (400 * 1024) 0⟩,
            ⟨"http.request", List.replicate (400 * 1024) 0⟩] 2
        { status_code := 413,
          detail := "Content size limit exceeded. Maximum allowed is 1MB and got 1.172MB." }) ∧
    ∀ (settings : Nat → Option Nat) (i r : Nat) (msgs fwd : List Msg) (j : Nat)
        (e : HTTPException),
      receive_wrapper_run settings i r msgs = .err fwd j e →
      ∃ L tot, settings j = some L ∧ L * 1024 * 1024 < tot ∧
        e = { status_code := 413, detail := sizeLimitMsg L tot } := by
  constructor
  · exact run_scenario_1mb (List.replicate (400 * 1024) 0) (by rw [List.length_replicate])
  · exact fun settings i r msgs fwd j e h => run_err_form settings msgs i r fwd j e h

/-- C9 witness: the general conjunct applied to the concrete scenario of
the first conjunct. -/
theorem C9_witness :
    ∃ L tot, (fun _ : Nat => some 1) 2 = some L ∧ L * 1024 * 1024 < tot ∧
      ({ status_code := 413,
         detail := "Content size limit exceeded. Maximum allowed is 1MB and got 1.172MB." } :
          HTTPException) =
        { status_code := 413, detail := sizeLimitMsg L tot } :=
  C9_error_message.2 (fun _ => some 1) 0 0
    [⟨"http.request", List.replicate (400 * 1024) 0⟩,
     ⟨"http.request", List.replicate (400 * 1024) 0⟩,
     ⟨"http.request", List.replicate (400 * 1024) 0⟩]
    [⟨"http.request", List.replicate (400 * 1024) 0⟩,
     ⟨"http.request", List.replicate (400 * 1024) 0⟩] 2
    { status_code := 413,
      detail := "Content size limit exceeded. Maximum allowed is 1MB and got 1.172MB." }
    C9_error_message.1

/-- C10: the running byte counter is incremented only by chunks that are
http.request messages read at a call where the settings oracle returned a
finite limit: for any run ending without a raise, the final counter is
the initial counter plus exactly the bytes of those chunks; chunks passed
through while the setting is the "no limit" value, and non-body messages,
do not count. -/
theorem C10_counter_only_guarded_chunks (settings : Nat → Option Nat) (msgs : List Msg) :
    ∀ i r fwd r', receive_wrapper_run settings i r msgs = .ok fwd r' →
      r' = r + countedBytes settings i msgs := by
  induction msgs with
  | nil =>
    intro i r fwd r' h
    rw [receive_wrapper_run_nil] at h
    injection h with h1 h2
    subst h2
    simp [countedBytes]
  | cons m ms ih =>
    intro i r fwd r' h
    rw [receive_wrapper_run_cons] at h
    rcases hs : settings i with _ | L
    · rw [hs, inner_none] at h
      dsimp only at h
      rw [GuardResult.consMsg_eq_ok] at h
      obtain ⟨fwd', hrec, rfl⟩ := h
      have hrc := ih (i + 1) r fwd' r' hrec
      simp [countedBytes, hs, hrc]
    · rw [hs] at h
      by_cases hm : m.type = "http.request"
      · by_cases hx : L * 1024 * 1024 < r + m.body.length
        · rw [inner_err L r m hm hx] at h
          dsimp only at h
          cases h
        · push_neg at hx
          rw [inner_ok L r m hm hx] at h
          dsimp only at h
          rw [GuardResult.consMsg_eq_ok] at h
          obtain ⟨fwd', hrec, rfl⟩ := h
          have hrc := ih (i + 1) (r + m.body.length) fwd' r' hrec
          simp only [countedBytes, hs, hm]
          simp
          omega
      · rw [inner_not_request _ r m hm] at h
        dsimp only at h
        rw [GuardResult.consMsg_eq_ok] at h
        obtain ⟨fwd', hrec, rfl⟩ := h
        have hrc := ih (i + 1) r fwd' r' hrec
        simp [countedBytes, hs, hm, hrc]

/-- C10 witness: with the limit unlimited at the first call and finite at
the second, only the second chunk's single byte is counted. -/
theorem C10_witness :
    (1 : Nat) = 0 + countedBytes (fun k => if k = 0 then none else some 1) 0
        [⟨"http.request", [7, 7]⟩, ⟨"http.request", [9]⟩] :=
  C10_counter_only_guarded_chunks (fun k => if k = 0 then none else some 1)
    [⟨"http.request", [7, 7]⟩, ⟨"http.request", [9]⟩] 0 0
    [⟨"http.request", [7, 7]⟩, ⟨"http.request", [9]⟩] 1 (by decide)

/-- C3: for every request with a non-empty allow-list and a non-bypass
path, the request is forwarded if and only if the extracted origin value
is non-empty and starts with at least one allow-list entry; otherwise the
gate responds 401 with the JSON body detail "Direct access not allowed",
logging a warning naming the rejected origin (or "unknown origin" if
empty); the next handler is not called in that case. -/
theorem C3_origin_gate_decision (allowed_origins : List String) (req : GateRequest)
    (hne : allowed_origins ≠ [])
    (hbp : bypass_paths.any (fun p => startswith req.path p) = false) :
    (dispatch allowed_origins req = .forwarded ↔
      extractOrigin req ≠ "" ∧
        ∃ a ∈ allowed_origins, startswith (extractOrigin req) a = true) ∧
    (¬ (extractOrigin req ≠ "" ∧
          ∃ a ∈ allowed_origins, startswith (extractOrigin req) a = true) →
      dispatch allowed_origins req =
        .rejected 401 [("detail", "Direct access not allowed")]
          ("🚫 Blocked direct access from: " ++
            (if extractOrigin req = "" then "unknown origin" else extractOrigin req))) := by
  by_cases ht : is_origin_allowed allowed_origins (extractOrigin req) = true
  · have hyes := (is_origin_allowed_iff allowed_origins (extractOrigin req)).mp ht
    refine ⟨⟨fun _ => hyes, fun _ => ?_⟩, fun hno => absurd hyes hno⟩
    simp [dispatch, hne, hbp, ht]
  · have hfa : is_origin_allowed allowed_origins (extractOrigin req) = false := by
      simpa using ht
    have hno' : ¬ (extractOrigin req ≠ "" ∧
        ∃ a ∈ allowed_origins, startswith (extractOrigin req) a = true) :=
      fun hyes => ht ((is_origin_allowed_iff allowed_origins (extractOrigin req)).mpr hyes)
    refine ⟨⟨fun hfwd => ?_, fun hyes => absurd hyes hno'⟩, fun _ => ?_⟩
    · simp [dispatch, hne, hbp, hfa] at hfwd
    · simp [dispatch, hne, hbp, hfa, blockedWarning]

/-- C3 witness: a disallowed origin on a non-bypass path is rejected with
the 401 body and warning. -/
theorem C3_witness :
    dispatch ["https://example.com"]
        (GateRequest.mk "/api/x" (some "https://evil.com") none) =
      .rejected 401 [("detail", "Direct access not allowed")]
        "🚫 Blocked direct access from: https://evil.com" := by
  have h := (C3_origin_gate_decision ["https://example.com"]
    (GateRequest.mk "/api/x" (some "https://evil.com") none)
    (by decide) (by decide)).2 (by decide)
  simpa using h

/-- C4 counterexample: a request whose Origin header is present but with
the empty value: the gate checks the Referer value (Python's `or` treats
the empty string as falsy), not the Origin header's value, so with an
allow-list matching the Referer the request is forwarded although the
claim's extraction rule would reject it. -/
theorem C4_counterexample :
    (GateRequest.mk "/api/x" (some "") (some "https://site.example")).originHeader =
        some "" ∧
    extractOrigin (GateRequest.mk "/api/x" (some "") (some "https://site.example")) =
        "https://site.example" ∧
    ("https://site.example" : String) ≠ "" ∧
    dispatch ["https://site.example"]
        (GateRequest.mk "/api/x" (some "") (some "https://site.example")) =
      .forwarded := by decide

/-- C4 (amended): the origin value the gate checks is the Origin header's
value when that header is present with a non-empty value; the Referer
header's value is consulted when the Origin header is absent or empty
(defaulting to the empty string when Referer is absent); when both
headers are absent the origin is the empty string. -/
theorem C4_origin_extraction (req : GateRequest) :
    (∀ s, req.originHeader = some s → s ≠ "" → extractOrigin req = s) ∧
    ((req.originHeader = none ∨ req.originHeader = some "") →
      extractOrigin req = headersGet req.refererHeader "") ∧
    (req.originHeader = none → req.refererHeader = none → extractOrigin req = "") := by
  refine ⟨?_, ?_, ?_⟩
  · intro s hs hne
    simp [extractOrigin, pyOr, hs, hne]
  · rintro (h | h) <;> simp [extractOrigin, pyOr, h]
  · intro h1 h2
    simp [extractOrigin, pyOr, headersGet, h1, h2]

/-- C4 witness: a present non-empty Origin header is the checked value. -/
theorem C4_witness :
    extractOrigin (GateRequest.mk "/x" (some "https://a.example") none) =
      "https://a.example" :=
  (C4_origin_extraction (GateRequest.mk "/x" (some "https://a.example") none)).1
    "https://a.example" rfl (by decide)

/-- C5: when the parsed allow-list is empty, every request — any path,
any Origin/Referer headers — is forwarded; the gate never produces a 401
in this mode. -/
theorem C5_empty_allowlist_forwards (env : String) (req : GateRequest)
    (hempty : parse_allowed_origins env = []) :
    dispatch (parse_allowed_origins env) req = .forwarded := by
  rw [hempty]
  rfl

/-- C5 witness: a whitespace-and-commas environment value parses to the
empty allow-list and a request with a hostile origin is forwarded. -/
theorem C5_witness :
    dispatch (parse_allowed_origins " , ")
        (GateRequest.mk "/api/x" (some "https://evil.com") none) = .forwarded :=
  C5_empty_allowlist_forwards " , "
    (GateRequest.mk "/api/x" (some "https://evil.com") none) (by decide)

/-- C6: every request whose path starts with one of the bypass prefixes
/health, /docs, /openapi.json is forwarded regardless of the
Origin/Referer headers and of the allow-list: the bypass decision is
taken before the origin check. -/
theorem C6_bypass_paths_forward (allowed_origins : List String) (req : GateRequest)
    (hbp : ∃ p ∈ bypass_paths, startswith req.path p = true) :
    dispatch allowed_origins req = .forwarded := by
  by_cases he : allowed_origins = []
  · simp [dispatch, he]
  · have hb : bypass_paths.any (fun p => startswith req.path p) = true := by
      rw [List.any_eq_true]
      exact hbp
    simp [dispatch, he, hb]

/-- C6 witness: a /health request with a hostile origin is forwarded even
with a non-empty allow-list. -/
theorem C6_witness :
    dispatch ["https://example.com"]
        (GateRequest.mk "/health" (some "https://evil.com") none) = .forwarded :=
  C6_bypass_paths_forward ["https://example.com"]
    (GateRequest.mk "/health" (some "https://evil.com") none) (by decide)

end Middleware
